import Mathlib

/-!
Shallow embedding of the analytics/optimization core of the `lion`
marketing backend, and proofs checking the specification's claims
against it.

Modelling conventions:
* Python floats are embedded as rationals (`ℚ`); `round(x, n)` is
  round-half-to-even at `n` decimal digits (`pyRound`).
* Python dict access `d[k]` on caller-supplied benchmark dictionaries is
  embedded in `Except`, raising `KeyError k` when the key is absent;
  `d.get(k, default)` is embedded as a total field access.
* Insight messages are f-strings in the source; since no claim depends on
  the formatted text, each distinct message template is embedded as a
  constructor of the `Insight` type; the list structure is preserved.
* The filesystem write in `save_recommendations` is modelled by a boolean
  environment flag `persistOk`; `persistOk = false` is the run where the
  persistence step raises.
-/

/-- Round-half-to-even to an integer, as Python `round` does on exact values. -/
def roundHalfEven (x : ℚ) : ℤ :=
  if x - ⌊x⌋ < 1/2 then ⌊x⌋
  else if 1/2 < x - ⌊x⌋ then ⌊x⌋ + 1
  else if ⌊x⌋ % 2 = 0 then ⌊x⌋ else ⌊x⌋ + 1

/-- Python `round(x, n)` on exact rational values. -/
def pyRound (x : ℚ) (n : ℕ) : ℚ := (roundHalfEven (x * 10 ^ n) : ℚ) / 10 ^ n

/-- `CampaignAnalytics.calculate_ctr` (analytics.py): CTR in percent,
`0` when `impressions` is falsy (zero). -/
def calculate_ctr (clicks impressions : ℚ) : ℚ :=
  if impressions = 0 then 0 else clicks / impressions * 100

/-- `CampaignAnalytics.calculate_cpc` (analytics.py). -/
def calculate_cpc (cost clicks : ℚ) : ℚ :=
  if clicks = 0 then 0 else cost / clicks

/-- `CampaignAnalytics.calculate_cpa` (analytics.py). -/
def calculate_cpa (cost conversions : ℚ) : ℚ :=
  if conversions = 0 then 0 else cost / conversions

/-- `CampaignAnalytics.calculate_roi` (analytics.py). -/
def calculate_roi (revenue cost : ℚ) : ℚ :=
  if cost = 0 then 0 else (revenue - cost) / cost * 100

/-- `CampaignAnalytics.calculate_frequency` (analytics.py). -/
def calculate_frequency (impressions reach : ℚ) : ℚ :=
  if reach = 0 then 0 else impressions / reach

/-- The campaign data dictionary consumed by `calculate_all_metrics`;
`campaign_data.get(k, 0)` defaults are realized by every field being
present (a missing key is a field equal to the default). -/
structure CampaignData where
  name : String
  period : String
  clicks : ℚ
  impressions : ℚ
  cost : ℚ
  conversions : ℚ
  revenue : ℚ
  reach : ℚ

/-- The `raw` sub-dictionary stored inside the metrics dictionary. -/
structure RawMetrics where
  clicks : ℚ
  impressions : ℚ
  cost : ℚ
  conversions : ℚ
  revenue : ℚ

/-- The metrics dictionary produced by `calculate_all_metrics`.
The `frequency` key is only inserted when `reach` is truthy, hence it is
the one `Option`-valued field. -/
structure Metrics where
  ctr : ℚ
  cpc : ℚ
  cpa : ℚ
  roi : ℚ
  frequency : Option ℚ
  conversion_rate : ℚ
  cpm : ℚ
  raw : RawMetrics

/-- `CampaignAnalytics.calculate_all_metrics` (analytics.py).  The
`try/except` wrapper in the source can only fire on non-numeric inputs,
which the numeric embedding excludes; on numeric input every operation
below is total. -/
def calculate_all_metrics (c : CampaignData) : Metrics :=
  Metrics.mk
    (calculate_ctr c.clicks c.impressions)
    (calculate_cpc c.cost c.clicks)
    (calculate_cpa c.cost c.conversions)
    (calculate_roi c.revenue c.cost)
    (if c.reach = 0 then none else some (calculate_frequency c.impressions c.reach))
    (if c.conversions ≠ 0 ∧ c.clicks ≠ 0 then c.conversions / c.clicks * 100 else 0)
    (if c.impressions = 0 then 0 else c.cost / c.impressions * 1000)
    (RawMetrics.mk c.clicks c.impressions c.cost c.conversions c.revenue)

/-- Keys of a caller-supplied benchmarks dictionary; `other` stands for
any key the code never reads. -/
inductive BmkKey
  | ctr
  | cpc
  | conversion_rate
  | roi
  | other
deriving DecidableEq

/-- A benchmarks dictionary: association list of key/value pairs.  The
Python `None` and `{}` arguments (both falsy) are represented by `[]`. -/
abbrev Benchmarks := List (BmkKey × ℚ)

/-- First value bound to `k`, as Python dict subscript lookup. -/
def dictLookup (k : BmkKey) : Benchmarks → Option ℚ
  | [] => none
  | (k', v) :: t => if k' = k then some v else dictLookup k t

/-- The default benchmark dictionary built inside `generate_insights`. -/
def defaultBenchmarks : Benchmarks :=
  [(BmkKey.ctr, 1), (BmkKey.cpc, 1/2), (BmkKey.conversion_rate, 2), (BmkKey.roi, 200)]

/-- One constructor per insight message template of `generate_insights`. -/
inductive Insight
  | ctrHigh
  | ctrLow
  | cpcLow
  | cpcHigh
  | convHigh
  | convLow
  | roiHigh
  | roiLow
  | roiNeg
  | comboCtrConv
  | comboClicksNoConv
  | genericAverage
  | genericAB
  | genericReview
deriving DecidableEq

/-- CTR insight branch of `generate_insights`. -/
def ctrPart (bctr ctr : ℚ) : List Insight :=
  if ctr > bctr * (3/2) then [Insight.ctrHigh]
  else if ctr < bctr * (7/10) then [Insight.ctrLow]
  else []

/-- CPC insight branch of `generate_insights`. -/
def cpcPart (bcpc cpc : ℚ) : List Insight :=
  if cpc < bcpc * (8/10) then [Insight.cpcLow]
  else if cpc > bcpc * (13/10) then [Insight.cpcHigh]
  else []

/-- Conversion-rate insight branch of `generate_insights`. -/
def convPart (bcr conv_rate : ℚ) : List Insight :=
  if conv_rate > bcr * (3/2) then [Insight.convHigh]
  else if conv_rate < bcr * (7/10) then [Insight.convLow]
  else []

/-- ROI insight branch of `generate_insights`. -/
def roiPart (broi roi : ℚ) : List Insight :=
  if roi > broi * (12/10) then [Insight.roiHigh]
  else if roi < broi * (7/10) then [Insight.roiLow]
  else if roi < 0 then [Insight.roiNeg]
  else []

/-- Cross-metric insight branches of `generate_insights`. -/
def comboPart (bctr bcr ctr conv_rate clicks conversions : ℚ) : List Insight :=
  (if ctr > bctr * (12/10) ∧ conv_rate < bcr * (8/10) then [Insight.comboCtrConv] else []) ++
  (if clicks > 200 ∧ conversions = 0 then [Insight.comboClicksNoConv] else [])

/-- Fallback branch of `generate_insights`: when fewer than two insights
were produced, a generic message (if none at all) and a closing
recommendation chosen by the sign of `roi` are appended. -/
def fallbackPart (base : List Insight) (roi : ℚ) : List Insight :=
  if base.length < 2 then
    (if base.isEmpty then [Insight.genericAverage] else []) ++
    [if roi > 0 then Insight.genericAB else Insight.genericReview]
  else []

/-- Body of `CampaignAnalytics.generate_insights` (analytics.py) after the
four benchmark values have been read, as a function of the metrics
dictionary. -/
def generate_insights_core (bctr bcpc bcr broi : ℚ) (m : Metrics) : List Insight :=
  let base := ctrPart bctr m.ctr ++ cpcPart bcpc m.cpc ++
    convPart bcr m.conversion_rate ++ roiPart broi m.roi ++
    comboPart bctr bcr m.ctr m.conversion_rate m.raw.clicks m.raw.conversions
  base ++ fallbackPart base m.roi

/-- `CampaignAnalytics.generate_insights` (analytics.py): a falsy
benchmarks argument selects the defaults; otherwise `benchmarks['ctr']`,
`benchmarks['cpc']`, `benchmarks['conversion_rate']` and
`benchmarks['roi']` are subscripted in that order, and the first missing
key raises `KeyError`. -/
def generate_insights (m : Metrics) (benchmarks : Benchmarks) : Except BmkKey (List Insight) :=
  let bm := if benchmarks = [] then defaultBenchmarks else benchmarks
  match dictLookup BmkKey.ctr bm, dictLookup BmkKey.cpc bm,
      dictLookup BmkKey.conversion_rate bm, dictLookup BmkKey.roi bm with
  | some bctr, some bcpc, some bcr, some broi =>
      Except.ok (generate_insights_core bctr bcpc bcr broi m)
  | none, _, _, _ => Except.error BmkKey.ctr
  | _, none, _, _ => Except.error BmkKey.cpc
  | _, _, none, _ => Except.error BmkKey.conversion_rate
  | _, _, _, none => Except.error BmkKey.roi

/-- Unrounded performance score of
`CampaignAnalytics._calculate_performance_rating` (analytics.py):
weighted capped ratios against the hard-coded benchmarks
roi 200, ctr 1, conversion_rate 2, cpc 0.5, scaled by 50 and capped
above at 100. -/
def perfScore (roi ctr conv_rate cpc : ℚ) : ℚ :=
  let roi_score := min (roi / 200) 2 * (4/10)
  let ctr_score := min (ctr / 1) 2 * (2/10)
  let conv_score := min (conv_rate / 2) 2 * (3/10)
  let cpc_score := if cpc > 0 then min ((1/2) / cpc) 2 * (1/10) else 0
  min ((roi_score + ctr_score + conv_score + cpc_score) * 50) 100

/-- The `score` field of the rating dictionary returned by
`_calculate_performance_rating`: the normalized score rounded to one
decimal.  The rating label and color are functions of this score and are
not needed by any claim. -/
def performanceRating (m : Metrics) : ℚ :=
  pyRound (perfScore m.roi m.ctr m.conversion_rate m.cpc) 1

/-- The rounded metrics block of `get_performance_summary`. -/
structure SummaryMetrics where
  ctr : ℚ
  cpc : ℚ
  conversion_rate : ℚ
  roi : ℚ
  clicks : ℚ
  impressions : ℚ
  cost : ℚ
  conversions : ℚ
  revenue : ℚ

/-- The summary dictionary of `get_performance_summary`. -/
structure Summary where
  campaign_name : String
  period : String
  metrics : SummaryMetrics
  insights : List Insight
  performance_rating : ℚ

/-- `CampaignAnalytics.get_performance_summary` (analytics.py): metrics
are recomputed, insights are generated with no benchmarks argument (so
with the default benchmark values), ratio metrics and monetary amounts
are rounded to two decimals. -/
def get_performance_summary (c : CampaignData) : Summary :=
  let m := calculate_all_metrics c
  Summary.mk c.name c.period
    (SummaryMetrics.mk (pyRound m.ctr 2) (pyRound m.cpc 2)
      (pyRound m.conversion_rate 2) (pyRound m.roi 2)
      m.raw.clicks m.raw.impressions (pyRound m.raw.cost 2)
      m.raw.conversions (pyRound m.raw.revenue 2))
    (generate_insights_core 1 (1/2) 2 200 m)
    (performanceRating m)

/-- One constructor per metric-triggered suggestion template of
`get_default_suggestions` (openai_utils.py). -/
inductive SpecTag
  | lowCtr
  | highCtr
  | highCpc
  | cheapCpcGoodConv
  | lowConv
  | highConv
  | lowRoi
  | highRoi
deriving DecidableEq

/-- Closing remark of `get_default_suggestions`, selected by ROI tier. -/
inductive Closing
  | strong
  | positive
  | needsWork
deriving DecidableEq

/-- The metric-triggered specific suggestions of `get_default_suggestions`,
in source order. -/
def specificSuggestions (ctr cpc conv_rate roi : ℚ) : List SpecTag :=
  (if ctr < 1 then [SpecTag.lowCtr] else if ctr > 5/2 then [SpecTag.highCtr] else []) ++
  (if cpc > 3/2 then [SpecTag.highCpc]
   else if cpc < 1/2 ∧ conv_rate > 2 then [SpecTag.cheapCpcGoodConv] else []) ++
  (if conv_rate < 2 then [SpecTag.lowConv] else if conv_rate > 5 then [SpecTag.highConv] else []) ++
  (if roi < 100 then [SpecTag.lowRoi] else if roi > 300 then [SpecTag.highRoi] else [])

/-- `get_default_suggestions` (openai_utils.py): up to three specific
suggestions, topped up to five with entries from the shuffled base pool
(the unseeded `random.shuffle` result is injected as `shuffledBase`,
pool entries named by index), plus a closing remark by ROI tier. -/
def get_default_suggestions (ctr cpc conv_rate roi : ℚ) (shuffledBase : List ℕ) :
    List SpecTag × List ℕ × Closing :=
  let selected := (specificSuggestions ctr cpc conv_rate roi).take 3
  let base := shuffledBase.take (5 - selected.length)
  (selected, base,
    if roi > 200 then Closing.strong else if roi > 100 then Closing.positive
    else Closing.needsWork)

/-- Exceptions that `CampaignOptimizer.adjust_budget` (optimization.py)
can hit inside its `try` block. -/
inductive PyErr
  | zeroDivision
  | ioErr
deriving DecidableEq

/-- The `try` block of `CampaignOptimizer.adjust_budget` (optimization.py):
tiered ROI and CTR factors, floor/ceiling clamps, rounding; then the
recommendation record computes `((new_budget / budget) - 1) * 100`
(ZeroDivisionError when `budget = 0`) and is persisted (modelled to raise
when `persistOk` is false). -/
def adjust_budget_core (persistOk : Bool) (roi ctr budget : ℚ) : Except PyErr ℚ :=
  let performance_factor : ℚ := 1
  let performance_factor := performance_factor *
    (if roi ≥ 500 then 13/10
     else if roi ≥ 300 then 12/10
     else if roi ≥ 200 then 11/10
     else if roi ≤ 50 then 7/10
     else if roi ≤ 100 then 85/100
     else 1)
  let performance_factor := performance_factor *
    (if ctr ≥ 3 then 11/10
     else if ctr ≥ 2 then 105/100
     else if ctr ≤ 1/2 then 9/10
     else if ctr ≤ 1 then 95/100
     else 1)
  let new_budget := budget * performance_factor
  let new_budget := max new_budget (budget * (1/2))
  let new_budget := min new_budget (budget * 2)
  let new_budget := pyRound new_budget 2
  if budget = 0 then Except.error PyErr.zeroDivision
  else if persistOk then Except.ok new_budget
  else Except.error PyErr.ioErr

/-- `CampaignOptimizer.adjust_budget`: the catch-all `except` returns the
current budget unchanged. -/
def adjust_budget (persistOk : Bool) (roi ctr budget : ℚ) : ℚ :=
  match adjust_budget_core persistOk roi ctr budget with
  | Except.ok v => v
  | Except.error _ => budget

/-- ROI tier factor as the specification states it (spec 4.4). -/
def f_roi (roi : ℚ) : ℚ :=
  if roi ≥ 500 then 13/10
  else if roi ≥ 300 then 12/10
  else if roi ≥ 200 then 11/10
  else if roi ≤ 50 then 7/10
  else if roi ≤ 100 then 85/100
  else 1

/-- CTR tier factor as the specification states it (spec 4.4). -/
def f_ctr (ctr : ℚ) : ℚ :=
  if ctr ≥ 3 then 11/10
  else if ctr ≥ 2 then 105/100
  else if ctr ≤ 1/2 then 9/10
  else if ctr ≤ 1 then 95/100
  else 1

/-- Reason tag stored with an underperforming campaign in
`analyze_campaign_batch`. -/
inductive Issue
  | lowOverall
  | negRoi
deriving DecidableEq

/-- Entry of the `needs_attention` list. -/
structure WorstEntry where
  name : String
  score : ℚ
  issue : Issue
deriving DecidableEq

/-- The `best_performing` record of `analyze_campaign_batch`. -/
structure BestRef where
  name : String
  score : ℚ
  roi : ℚ
deriving DecidableEq

/-- Running-maximum step of the batch loop: strictly greater score takes
over, ties keep the incumbent; state is `(best_score, best_performing)`
initialized at `(-1, none)`. -/
def bestStep (acc : ℚ × Option BestRef) (s : Summary) : ℚ × Option BestRef :=
  if s.performance_rating > acc.1 then
    (s.performance_rating, some (BestRef.mk s.campaign_name s.performance_rating s.metrics.roi))
  else acc

/-- The underperformer filter of the batch loop. -/
def worstOf (s : Summary) : Option WorstEntry :=
  if s.performance_rating < 40 then
    some (WorstEntry.mk s.campaign_name s.performance_rating Issue.lowOverall)
  else if s.metrics.roi < 0 then
    some (WorstEntry.mk s.campaign_name s.performance_rating Issue.negRoi)
  else none

/-- Stable insertion by score (equal scores keep original order), the
behaviour of Python `list.sort(key=score)`. -/
def insertByScore (a : WorstEntry) : List WorstEntry → List WorstEntry
  | [] => [a]
  | b :: t => if a.score < b.score then a :: b :: t else b :: insertByScore a t

/-- Stable sort ascending by score. -/
def sortByScore : List WorstEntry → List WorstEntry
  | [] => []
  | a :: t => insertByScore a (sortByScore t)

/-- The `overall` block of the batch result. -/
structure Overall where
  total_cost : ℚ
  total_revenue : ℚ
  total_conversions : ℚ
  average_ctr : ℚ
  average_conversion_rate : ℚ
  roi : ℚ
  best_performing : Option BestRef
  needs_attention : List WorstEntry

/-- Result of `analyze_campaign_batch`. -/
structure BatchResult where
  campaigns : List Summary
  overall : Overall

/-- `analyze_campaign_batch` (analytics.py): per-campaign summaries,
accumulated totals, running best campaign from sentinel score `-1`,
underperformers (score below 40, else negative rounded ROI) sorted
ascending by score and truncated to three; the early return on an empty
input list yields exactly this formula's value at `[]`. -/
def analyze_campaign_batch (l : List CampaignData) : BatchResult :=
  let summaries := l.map get_performance_summary
  let total_cost := (summaries.map (fun s => s.metrics.cost)).sum
  let total_revenue := (summaries.map (fun s => s.metrics.revenue)).sum
  let total_conversions := (summaries.map (fun s => s.metrics.conversions)).sum
  let total_clicks := (summaries.map (fun s => s.metrics.clicks)).sum
  let total_impressions := (summaries.map (fun s => s.metrics.impressions)).sum
  let worst := summaries.filterMap worstOf
  BatchResult.mk summaries
    (Overall.mk total_cost total_revenue total_conversions
      (if total_impressions > 0 then total_clicks / total_impressions * 100 else 0)
      (if total_clicks > 0 then total_conversions / total_clicks * 100 else 0)
      (if total_cost > 0 then (total_revenue - total_cost) / total_cost * 100 else 0)
      (summaries.foldl bestStep ((-1 : ℚ), (none : Option BestRef))).2
      ((sortByScore worst).take 3))

/-- Maximum summary score over a list, folded from a seed. -/
def maxScoreFrom (m : ℚ) (l : List Summary) : ℚ :=
  l.foldl (fun a s => max a s.performance_rating) m

/-- The `best_performing` record a summary gives rise to. -/
def mkBestRef (s : Summary) : BestRef :=
  BestRef.mk s.campaign_name s.performance_rating s.metrics.roi

/-- Replace the ctr entry of a metrics dictionary. -/
def setCtr (m : Metrics) (v : ℚ) : Metrics :=
  Metrics.mk v m.cpc m.cpa m.roi m.frequency m.conversion_rate m.cpm m.raw

/-- Replace the cpc entry of a metrics dictionary. -/
def setCpc (m : Metrics) (v : ℚ) : Metrics :=
  Metrics.mk m.ctr v m.cpa m.roi m.frequency m.conversion_rate m.cpm m.raw

/-- Replace the conversion_rate entry of a metrics dictionary. -/
def setConvRate (m : Metrics) (v : ℚ) : Metrics :=
  Metrics.mk m.ctr m.cpc m.cpa m.roi m.frequency v m.cpm m.raw

/-- Replace the roi entry of a metrics dictionary. -/
def setRoi (m : Metrics) (v : ℚ) : Metrics :=
  Metrics.mk m.ctr m.cpc m.cpa v m.frequency m.conversion_rate m.cpm m.raw

/-- No cutoff in the list separates `x` from `y`. -/
def sameSide (cutoffs : List ℚ) (x y : ℚ) : Prop :=
  ∀ t ∈ cutoffs, (x < t ↔ y < t) ∧ (t < x ↔ t < y)

/-- The cutoff points `benchmark × {0.7, 1.2, 1.5}` named by the claim. -/
def tierCutoffs (b : ℚ) : List ℚ := [b * (7/10), b * (12/10), b * (3/2)]

/-- Formalization of the claim that every insight threshold is the
benchmark times one of the tier multipliers 0.7, 1.2, 1.5: varying any
single metric without crossing one of those cutoffs would then never
change the produced insight list. -/
def insightThresholdsFromTiers : Prop :=
  ∀ (bctr bcpc bcr broi : ℚ) (m : Metrics) (x y : ℚ),
    (sameSide (tierCutoffs bctr) x y →
      generate_insights_core bctr bcpc bcr broi (setCtr m x) =
      generate_insights_core bctr bcpc bcr broi (setCtr m y)) ∧
    (sameSide (tierCutoffs bcpc) x y →
      generate_insights_core bctr bcpc bcr broi (setCpc m x) =
      generate_insights_core bctr bcpc bcr broi (setCpc m y)) ∧
    (sameSide (tierCutoffs bcr) x y →
      generate_insights_core bctr bcpc bcr broi (setConvRate m x) =
      generate_insights_core bctr bcpc bcr broi (setConvRate m y)) ∧
    (sameSide (tierCutoffs broi) x y →
      generate_insights_core bctr bcpc bcr broi (setRoi m x) =
      generate_insights_core bctr bcpc bcr broi (setRoi m y))

/-- A campaign that only spent: cost 100, everything else zero. -/
def spendOnlyCampaign : CampaignData :=
  CampaignData.mk "a" "p" 0 0 100 0 0 0

/-- A campaign with reach zero (and otherwise ordinary numbers). -/
def noReachCampaign : CampaignData :=
  CampaignData.mk "b" "p" 10 1000 5 2 50 0

/-- An all-zero metrics dictionary. -/
def zeroMetrics : Metrics :=
  Metrics.mk 0 0 0 0 none 0 0 (RawMetrics.mk 0 0 0 0 0)

theorem roundHalfEven_intCast (z : ℤ) : roundHalfEven (z : ℚ) = z := by
  unfold roundHalfEven
  rw [Int.floor_intCast]
  norm_num

theorem roundHalfEven_le (x : ℚ) : (roundHalfEven x : ℚ) ≤ x + 1/2 := by
  have h1 : (⌊x⌋ : ℚ) ≤ x := Int.floor_le x
  have h2 : x < ⌊x⌋ + 1 := Int.lt_floor_add_one x
  unfold roundHalfEven
  split_ifs <;> push_cast <;> linarith

theorem le_roundHalfEven (x : ℚ) : x - 1/2 ≤ (roundHalfEven x : ℚ) := by
  have h1 : (⌊x⌋ : ℚ) ≤ x := Int.floor_le x
  have h2 : x < ⌊x⌋ + 1 := Int.lt_floor_add_one x
  unfold roundHalfEven
  split_ifs <;> push_cast <;> linarith

theorem roundHalfEven_mono {x y : ℚ} (h : x ≤ y) : roundHalfEven x ≤ roundHalfEven y := by
  rcases eq_or_lt_of_le h with rfl | hlt
  · exact le_rfl
  · have h1 := roundHalfEven_le x
    have h2 := le_roundHalfEven y
    have h3 : (roundHalfEven x : ℚ) < (roundHalfEven y : ℚ) + 1 := by linarith
    exact Int.lt_add_one_iff.mp (by exact_mod_cast h3)

theorem pyRound_mono {x y : ℚ} (n : ℕ) (h : x ≤ y) : pyRound x n ≤ pyRound y n := by
  unfold pyRound
  have hp : (0:ℚ) < 10 ^ n := by positivity
  have hm : x * 10 ^ n ≤ y * 10 ^ n := mul_le_mul_of_nonneg_right h (le_of_lt hp)
  exact (div_le_div_right hp).mpr (Int.cast_le.mpr (roundHalfEven_mono hm))

theorem pyRound_intCast (z : ℤ) (n : ℕ) : pyRound (z : ℚ) n = z := by
  unfold pyRound
  have hp : (10:ℚ) ^ n ≠ 0 := by positivity
  have h : ((z : ℚ) * 10 ^ n) = ((z * 10 ^ n : ℤ) : ℚ) := by push_cast; ring
  rw [h, roundHalfEven_intCast]
  push_cast
  rw [mul_div_assoc, div_self hp, mul_one]

theorem pyRound_le (x : ℚ) (n : ℕ) : pyRound x n ≤ x + (1/2) / 10 ^ n := by
  unfold pyRound
  have hp : (0:ℚ) < 10 ^ n := by positivity
  have h := roundHalfEven_le (x * 10 ^ n)
  have h2 := (div_le_div_right hp).mpr h
  rwa [add_div, mul_div_cancel_right₀ _ (ne_of_gt hp)] at h2

theorem le_pyRound (x : ℚ) (n : ℕ) : x - (1/2) / 10 ^ n ≤ pyRound x n := by
  unfold pyRound
  have hp : (0:ℚ) < 10 ^ n := by positivity
  have h := le_roundHalfEven (x * 10 ^ n)
  have h2 := (div_le_div_right hp).mpr h
  rwa [sub_div, mul_div_cancel_right₀ _ (ne_of_gt hp)] at h2

theorem pyRound_zero (n : ℕ) : pyRound 0 n = 0 := by
  have := pyRound_intCast 0 n
  simpa using this

theorem pyRound_hundred (n : ℕ) : pyRound 100 n = 100 := by
  have := pyRound_intCast 100 n
  simpa using this

theorem dictLookup_isSome_of_mem {bm : Benchmarks} {k : BmkKey} {v : ℚ}
    (h : (k, v) ∈ bm) : ∃ w, dictLookup k bm = some w := by
  induction bm with
  | nil => cases h
  | cons a t ih =>
    obtain ⟨k', v'⟩ := a
    by_cases hk : k' = k
    · exact ⟨v', by simp [dictLookup, hk]⟩
    · rcases List.mem_cons.mp h with heq | hmem
      · injection heq with h1 h2
        exact absurd h1.symm hk
      · obtain ⟨w, hw⟩ := ih hmem
        exact ⟨w, by simp [dictLookup, hk, hw]⟩

theorem adjust_budget_eq_formula (roi ctr budget : ℚ) :
    adjust_budget true roi ctr budget =
      pyRound (min (max (budget * (f_roi roi * f_ctr ctr)) (budget * (1/2))) (budget * 2)) 2 := by
  by_cases hb : budget = 0
  · subst hb
    simp [adjust_budget, adjust_budget_core, pyRound_zero]
  · simp [adjust_budget, adjust_budget_core, f_roi, f_ctr, hb]

/-- C3: the Metrics Calculator satisfies its contract on non-negative
inputs: each ratio is the stated quotient when its denominator is
positive and 0 when it is zero, and ROI(150, 100) = 50. -/
theorem C3_metrics_calculator_contract
    (clicks impressions cost conversions revenue reach : ℚ)
    (hclicks : 0 ≤ clicks) (himp : 0 ≤ impressions) (hcost : 0 ≤ cost)
    (hconv : 0 ≤ conversions) (hrev : 0 ≤ revenue) (hreach : 0 ≤ reach) :
    ((0 < impressions → calculate_ctr clicks impressions = clicks / impressions * 100) ∧
      calculate_ctr clicks 0 = 0) ∧
    ((0 < clicks → calculate_cpc cost clicks = cost / clicks) ∧
      calculate_cpc cost 0 = 0) ∧
    ((0 < conversions → calculate_cpa cost conversions = cost / conversions) ∧
      calculate_cpa cost 0 = 0) ∧
    ((0 < cost → calculate_roi revenue cost = (revenue - cost) / cost * 100) ∧
      calculate_roi revenue 0 = 0 ∧ calculate_roi 150 100 = 50) ∧
    ((0 < reach → calculate_frequency impressions reach = impressions / reach) ∧
      calculate_frequency impressions 0 = 0) := by
  refine ⟨⟨fun h => ?_, ?_⟩, ⟨fun h => ?_, ?_⟩, ⟨fun h => ?_, ?_⟩,
    ⟨fun h => ?_, ?_, ?_⟩, fun h => ?_, ?_⟩
  · rw [calculate_ctr, if_neg (ne_of_gt h)]
  · rw [calculate_ctr, if_pos rfl]
  · rw [calculate_cpc, if_neg (ne_of_gt h)]
  · rw [calculate_cpc, if_pos rfl]
  · rw [calculate_cpa, if_neg (ne_of_gt h)]
  · rw [calculate_cpa, if_pos rfl]
  · rw [calculate_roi, if_neg (ne_of_gt h)]
  · rw [calculate_roi, if_pos rfl]
  · rw [calculate_roi, if_neg (by norm_num)]
    norm_num
  · rw [calculate_frequency, if_neg (ne_of_gt h)]
  · rw [calculate_frequency, if_pos rfl]

theorem C3_metrics_calculator_contract_witness :
    calculate_roi 150 100 = 50 :=
  (C3_metrics_calculator_contract 5 10 100 2 150 20 (by norm_num) (by norm_num)
    (by norm_num) (by norm_num) (by norm_num) (by norm_num)).2.2.2.1.2.2

/-- C4 counterexample: with reach = 0 the metrics dictionary produced by
calculate_all_metrics contains no frequency entry at all, rather than a
frequency entry equal to 0 as the claim states. -/
theorem C4_frequency_counterexample :
    noReachCampaign.reach = 0 ∧
      (calculate_all_metrics noReachCampaign).frequency = none := by
  exact ⟨rfl, rfl⟩

/-- C4 amended: every ratio entry other than frequency is 0 when its
denominator is 0; the frequency entry is present (equal to
impressions/reach) exactly when reach ≠ 0 and absent when reach = 0; the
standalone calculate_frequency does return 0 at reach = 0. -/
theorem C4_zero_denominators_amended (c : CampaignData) :
    (c.impressions = 0 →
      (calculate_all_metrics c).ctr = 0 ∧ (calculate_all_metrics c).cpm = 0) ∧
    (c.clicks = 0 →
      (calculate_all_metrics c).cpc = 0 ∧ (calculate_all_metrics c).conversion_rate = 0) ∧
    (c.conversions = 0 → (calculate_all_metrics c).cpa = 0) ∧
    (c.cost = 0 → (calculate_all_metrics c).roi = 0) ∧
    ((calculate_all_metrics c).frequency =
      if c.reach = 0 then none else some (c.impressions / c.reach)) ∧
    calculate_frequency c.impressions 0 = 0 := by
  refine ⟨fun h => ?_, fun h => ?_, fun h => ?_, fun h => ?_, ?_, ?_⟩
  · exact ⟨by simp [calculate_all_metrics, calculate_ctr, h],
      by simp [calculate_all_metrics, h]⟩
  · exact ⟨by simp [calculate_all_metrics, calculate_cpc, h],
      by simp [calculate_all_metrics, h]⟩
  · simp [calculate_all_metrics, calculate_cpa, h]
  · simp [calculate_all_metrics, calculate_roi, h]
  · by_cases hr : c.reach = 0
    · simp [calculate_all_metrics, hr]
    · simp [calculate_all_metrics, calculate_frequency, hr]
  · simp [calculate_frequency]

theorem C4_zero_denominators_amended_witness :
    (calculate_all_metrics spendOnlyCampaign).ctr = 0 ∧
      (calculate_all_metrics spendOnlyCampaign).cpm = 0 :=
  (C4_zero_denominators_amended spendOnlyCampaign).1 rfl

/-- C2: for every roi, ctr and budget (in the run where persisting the
recommendation succeeds), adjust_budget returns
round(clamp(budget·f_roi(roi)·f_ctr(ctr), 0.5·budget, 2·budget), 2), with
the tier functions exactly as the claim lists them; in particular
adjust_budget(350, 2.5, 100) = 126.00 and adjust_budget(30, 0.3, 100) = 63.0. -/
theorem C2_adjust_budget_formula :
    (∀ roi ctr budget : ℚ,
      adjust_budget true roi ctr budget =
        pyRound (min (max (budget * (f_roi roi * f_ctr ctr)) (budget * (1/2)))
          (budget * 2)) 2) ∧
    adjust_budget true 350 (5/2) 100 = 126 ∧ adjust_budget true 30 (3/10) 100 = 63 := by
  refine ⟨adjust_budget_eq_formula, ?_, ?_⟩
  · rw [adjust_budget_eq_formula]
    have h : min (max ((100:ℚ) * (f_roi 350 * f_ctr (5/2))) (100 * (1/2))) (100 * 2) = 126 := by
      norm_num [f_roi, f_ctr, max_def, min_def]
    rw [h]
    simpa using pyRound_intCast 126 2
  · rw [adjust_budget_eq_formula]
    have h : min (max ((100:ℚ) * (f_roi 30 * f_ctr (3/10))) (100 * (1/2))) (100 * 2) = 63 := by
      norm_num [f_roi, f_ctr, max_def, min_def]
    rw [h]
    simpa using pyRound_intCast 63 2

/-- C7: adjust_budget never fails: whenever the body raises (zero budget
making the change-percent computation divide by zero, or a failing
persistence step), the current budget is returned unmodified; with
persistence failing it always returns the budget, and a zero budget always
raises ZeroDivisionError internally. -/
theorem C7_adjust_budget_failsafe :
    (∀ (persistOk : Bool) (roi ctr budget : ℚ) (e : PyErr),
        adjust_budget_core persistOk roi ctr budget = Except.error e →
        adjust_budget persistOk roi ctr budget = budget) ∧
    (∀ roi ctr budget : ℚ, adjust_budget false roi ctr budget = budget) ∧
    (∀ (persistOk : Bool) (roi ctr : ℚ),
        adjust_budget_core persistOk roi ctr 0 = Except.error PyErr.zeroDivision) := by
  refine ⟨?_, ?_, ?_⟩
  · intro p roi ctr b e h
    unfold adjust_budget
    rw [h]
  · intro roi ctr b
    unfold adjust_budget adjust_budget_core
    by_cases hb : b = 0 <;> simp [hb]
  · intro p roi ctr
    unfold adjust_budget_core
    simp

theorem C7_adjust_budget_failsafe_witness : adjust_budget true 100 1 0 = 0 :=
  C7_adjust_budget_failsafe.1 true 100 1 0 PyErr.zeroDivision
    (C7_adjust_budget_failsafe.2.2 true 100 1)

/-- C5 amended: the metric pipeline returns normally when benchmarks are
omitted (falsy) or contain all four read keys; adjust_budget either
returns its computed value or falls back to the unchanged budget; the
default-suggestion generator is total with at most three specific
suggestions.  (The original claim fails only for a caller-supplied
non-empty benchmarks dictionary missing one of the four keys.) -/
theorem C5_no_escape_amended :
    (∀ (m : Metrics) (bm : Benchmarks),
        (bm = [] ∨
          ((∃ v, (BmkKey.ctr, v) ∈ bm) ∧ (∃ v, (BmkKey.cpc, v) ∈ bm) ∧
            (∃ v, (BmkKey.conversion_rate, v) ∈ bm) ∧ (∃ v, (BmkKey.roi, v) ∈ bm))) →
        ∃ l, generate_insights m bm = Except.ok l) ∧
    (∀ (persistOk : Bool) (roi ctr budget : ℚ),
        adjust_budget_core persistOk roi ctr budget =
          Except.ok (adjust_budget persistOk roi ctr budget) ∨
        adjust_budget persistOk roi ctr budget = budget) ∧
    (∀ (ctr cpc conv_rate roi : ℚ) (pool : List ℕ),
        ((get_default_suggestions ctr cpc conv_rate roi pool).1).length ≤ 3) := by
  refine ⟨?_, ?_, ?_⟩
  · intro m bm h
    rcases h with rfl | ⟨⟨v1, h1⟩, ⟨v2, h2⟩, ⟨v3, h3⟩, ⟨v4, h4⟩⟩
    · exact ⟨_, rfl⟩
    · have hne : bm ≠ [] := List.ne_nil_of_mem h1
      obtain ⟨w1, e1⟩ := dictLookup_isSome_of_mem h1
      obtain ⟨w2, e2⟩ := dictLookup_isSome_of_mem h2
      obtain ⟨w3, e3⟩ := dictLookup_isSome_of_mem h3
      obtain ⟨w4, e4⟩ := dictLookup_isSome_of_mem h4
      refine ⟨generate_insights_core w1 w2 w3 w4 m, ?_⟩
      simp only [generate_insights, if_neg hne]
      rw [e1, e2, e3, e4]
  · intro p roi ctr b
    cases h : adjust_budget_core p roi ctr b with
    | ok v =>
        left
        unfold adjust_budget
        rw [h]
    | error e =>
        right
        unfold adjust_budget
        rw [h]
  · intro ctr cpc conv_rate roi pool
    simp only [get_default_suggestions]
    exact List.length_take_le 3 _

/-- C5 counterexample: generate_insights raises KeyError on a non-empty
caller-supplied benchmarks dictionary that lacks the ctr key, so an
exception does escape under such an input. -/
theorem C5_no_escape_counterexample :
    generate_insights zeroMetrics [(BmkKey.cpc, 1)] = Except.error BmkKey.ctr := rfl

theorem C5_no_escape_amended_witness :
    ∃ l, generate_insights zeroMetrics [] = Except.ok l :=
  C5_no_escape_amended.1 zeroMetrics [] (Or.inl rfl)

theorem ctrPart_congr {b x y : ℚ} (h1 : b * (3/2) < x ↔ b * (3/2) < y)
    (h2 : x < b * (7/10) ↔ y < b * (7/10)) : ctrPart b x = ctrPart b y := by
  unfold ctrPart
  by_cases hx : x > b * (3/2)
  · rw [if_pos hx, if_pos (h1.mp hx)]
  · rw [if_neg hx, if_neg (fun hy => hx (h1.mpr hy))]
    by_cases hx2 : x < b * (7/10)
    · rw [if_pos hx2, if_pos (h2.mp hx2)]
    · rw [if_neg hx2, if_neg (fun hy => hx2 (h2.mpr hy))]

theorem cpcPart_congr {b x y : ℚ} (h1 : x < b * (8/10) ↔ y < b * (8/10))
    (h2 : b * (13/10) < x ↔ b * (13/10) < y) : cpcPart b x = cpcPart b y := by
  unfold cpcPart
  by_cases hx : x < b * (8/10)
  · rw [if_pos hx, if_pos (h1.mp hx)]
  · rw [if_neg hx, if_neg (fun hy => hx (h1.mpr hy))]
    by_cases hx2 : x > b * (13/10)
    · rw [if_pos hx2, if_pos (h2.mp hx2)]
    · rw [if_neg hx2, if_neg (fun hy => hx2 (h2.mpr hy))]

theorem convPart_congr {b x y : ℚ} (h1 : b * (3/2) < x ↔ b * (3/2) < y)
    (h2 : x < b * (7/10) ↔ y < b * (7/10)) : convPart b x = convPart b y := by
  unfold convPart
  by_cases hx : x > b * (3/2)
  · rw [if_pos hx, if_pos (h1.mp hx)]
  · rw [if_neg hx, if_neg (fun hy => hx (h1.mpr hy))]
    by_cases hx2 : x < b * (7/10)
    · rw [if_pos hx2, if_pos (h2.mp hx2)]
    · rw [if_neg hx2, if_neg (fun hy => hx2 (h2.mpr hy))]

theorem roiPart_congr {b x y : ℚ} (h1 : b * (12/10) < x ↔ b * (12/10) < y)
    (h2 : x < b * (7/10) ↔ y < b * (7/10)) (h3 : x < 0 ↔ y < 0) :
    roiPart b x = roiPart b y := by
  unfold roiPart
  by_cases hx : x > b * (12/10)
  · rw [if_pos hx, if_pos (h1.mp hx)]
  · rw [if_neg hx, if_neg (fun hy => hx (h1.mpr hy))]
    by_cases hx2 : x < b * (7/10)
    · rw [if_pos hx2, if_pos (h2.mp hx2)]
    · rw [if_neg hx2, if_neg (fun hy => hx2 (h2.mpr hy))]
      by_cases hx3 : x < 0
      · rw [if_pos hx3, if_pos (h3.mp hx3)]
      · rw [if_neg hx3, if_neg (fun hy => hx3 (h3.mpr hy))]

theorem comboPart_congr_ctr {bctr bcr cr cl cv x y : ℚ}
    (h : bctr * (12/10) < x ↔ bctr * (12/10) < y) :
    comboPart bctr bcr x cr cl cv = comboPart bctr bcr y cr cl cv := by
  unfold comboPart
  congr 1
  by_cases hx : x > bctr * (12/10) ∧ cr < bcr * (8/10)
  · rw [if_pos hx, if_pos ⟨h.mp hx.1, hx.2⟩]
  · rw [if_neg hx, if_neg (fun hy => hx ⟨h.mpr hy.1, hy.2⟩)]

theorem comboPart_congr_conv {bctr bcr ctr cl cv x y : ℚ}
    (h : x < bcr * (8/10) ↔ y < bcr * (8/10)) :
    comboPart bctr bcr ctr x cl cv = comboPart bctr bcr ctr y cl cv := by
  unfold comboPart
  congr 1
  by_cases hx : ctr > bctr * (12/10) ∧ x < bcr * (8/10)
  · rw [if_pos hx, if_pos ⟨hx.1, h.mp hx.2⟩]
  · rw [if_neg hx, if_neg (fun hy => hx ⟨hy.1, h.mpr hy.2⟩)]

theorem fallbackPart_congr {base : List Insight} {x y : ℚ} (h : 0 < x ↔ 0 < y) :
    fallbackPart base x = fallbackPart base y := by
  unfold fallbackPart
  by_cases hlen : base.length < 2
  · rw [if_pos hlen, if_pos hlen]
    congr 1
    by_cases hx : x > 0
    · rw [if_pos hx, if_pos (h.mp hx)]
    · rw [if_neg hx, if_neg (fun hy => hx (h.mpr hy))]
  · rw [if_neg hlen, if_neg hlen]

/-- C6 amended: the insight cutoffs per metric are: ctr at
benchmark×{0.7, 1.2, 1.5}; cpc at benchmark×{0.8, 1.3}; conversion_rate
at benchmark×{0.7, 0.8, 1.5}; roi at benchmark×{0.7, 1.2} together with
the fixed cutoff 0 (negative-ROI and fallback branches): varying one
metric without crossing the corresponding set never changes the insight
list. -/
theorem C6_insight_thresholds_amended
    (bctr bcpc bcr broi : ℚ) (m : Metrics) (x y : ℚ) :
    (sameSide (tierCutoffs bctr) x y →
      generate_insights_core bctr bcpc bcr broi (setCtr m x) =
      generate_insights_core bctr bcpc bcr broi (setCtr m y)) ∧
    (sameSide [bcpc * (8/10), bcpc * (13/10)] x y →
      generate_insights_core bctr bcpc bcr broi (setCpc m x) =
      generate_insights_core bctr bcpc bcr broi (setCpc m y)) ∧
    (sameSide [bcr * (7/10), bcr * (8/10), bcr * (3/2)] x y →
      generate_insights_core bctr bcpc bcr broi (setConvRate m x) =
      generate_insights_core bctr bcpc bcr broi (setConvRate m y)) ∧
    (sameSide [broi * (7/10), broi * (12/10), (0:ℚ)] x y →
      generate_insights_core bctr bcpc bcr broi (setRoi m x) =
      generate_insights_core bctr bcpc bcr broi (setRoi m y)) := by
  refine ⟨fun hss => ?_, fun hss => ?_, fun hss => ?_, fun hss => ?_⟩
  · have hlow := (hss (bctr * (7/10)) (by simp [tierCutoffs])).1
    have hmid := (hss (bctr * (12/10)) (by simp [tierCutoffs])).2
    have hhigh := (hss (bctr * (3/2)) (by simp [tierCutoffs])).2
    simp only [generate_insights_core, setCtr]
    rw [ctrPart_congr hhigh hlow, comboPart_congr_ctr hmid]
  · have hlow := (hss (bcpc * (8/10)) (by simp)).1
    have hhigh := (hss (bcpc * (13/10)) (by simp)).2
    simp only [generate_insights_core, setCpc]
    rw [cpcPart_congr hlow hhigh]
  · have hlow := (hss (bcr * (7/10)) (by simp)).1
    have hcombo := (hss (bcr * (8/10)) (by simp)).1
    have hhigh := (hss (bcr * (3/2)) (by simp)).2
    simp only [generate_insights_core, setConvRate]
    rw [convPart_congr hhigh hlow, comboPart_congr_conv hcombo]
  · have hlow := (hss (broi * (7/10)) (by simp)).1
    have hmid := (hss (broi * (12/10)) (by simp)).2
    have hzlt := (hss 0 (by simp)).1
    have hzgt := (hss 0 (by simp)).2
    simp only [generate_insights_core, setRoi]
    rw [roiPart_congr hmid hlow hzlt, fallbackPart_congr hzgt]

/-- C6 counterexample: the CPC cutoffs in the code are benchmark×0.8 and
benchmark×1.3: moving cpc from 0.39 to 0.41 crosses none of the claimed
cutoffs benchmark×{0.7, 1.2, 1.5} of the default cpc benchmark 0.5, yet
the produced insight list changes, refuting the claim as stated. -/
theorem C6_insight_thresholds_counterexample : ¬ insightThresholdsFromTiers := by
  intro h
  have h2 := (h 1 (1/2) 2 200 zeroMetrics (39/100) (41/100)).2.1
  have hss : sameSide (tierCutoffs (1/2)) (39/100) (41/100) := by
    intro t ht
    simp only [tierCutoffs, List.mem_cons, List.not_mem_nil, or_false] at ht
    rcases ht with rfl | rfl | rfl <;> norm_num
  have heq := h2 hss
  have e1 : generate_insights_core 1 (1/2) 2 200 (setCpc zeroMetrics (39/100)) =
      [Insight.ctrLow, Insight.cpcLow, Insight.convLow, Insight.roiLow] := by
    norm_num [generate_insights_core, setCpc, zeroMetrics, ctrPart, cpcPart,
      convPart, roiPart, comboPart, fallbackPart]
  have e2 : generate_insights_core 1 (1/2) 2 200 (setCpc zeroMetrics (41/100)) =
      [Insight.ctrLow, Insight.convLow, Insight.roiLow] := by
    norm_num [generate_insights_core, setCpc, zeroMetrics, ctrPart, cpcPart,
      convPart, roiPart, comboPart, fallbackPart]
  rw [e1, e2] at heq
  simp at heq

theorem C6_insight_thresholds_amended_witness :
    generate_insights_core 1 1 2 200 (setCpc zeroMetrics 1) =
      generate_insights_core 1 1 2 200 (setCpc zeroMetrics (5/4)) :=
  (C6_insight_thresholds_amended 1 1 2 200 zeroMetrics 1 (5/4)).2.1 (by
    intro t ht
    simp only [List.mem_cons, List.not_mem_nil, or_false] at ht
    rcases ht with rfl | rfl <;> norm_num)

theorem perfScore_le_hundred (roi ctr cr cpc : ℚ) : perfScore roi ctr cr cpc ≤ 100 := by
  simp only [perfScore]
  exact min_le_right _ _

theorem perfScore_nonneg {roi ctr cr : ℚ} (cpc : ℚ)
    (h1 : 0 ≤ roi) (h2 : 0 ≤ ctr) (h3 : 0 ≤ cr) : 0 ≤ perfScore roi ctr cr cpc := by
  simp only [perfScore]
  have r1 : (0:ℚ) ≤ min (roi / 200) 2 * (4/10) :=
    mul_nonneg (le_min (div_nonneg h1 (by norm_num)) (by norm_num)) (by norm_num)
  have r2 : (0:ℚ) ≤ min (ctr / 1) 2 * (2/10) :=
    mul_nonneg (le_min (div_nonneg h2 (by norm_num)) (by norm_num)) (by norm_num)
  have r3 : (0:ℚ) ≤ min (cr / 2) 2 * (3/10) :=
    mul_nonneg (le_min (div_nonneg h3 (by norm_num)) (by norm_num)) (by norm_num)
  have r4 : (0:ℚ) ≤ if cpc > 0 then min ((1/2) / cpc) 2 * (1/10) else 0 := by
    split_ifs with h
    · exact mul_nonneg (le_min (div_nonneg (by norm_num) (le_of_lt h)) (by norm_num)) (by norm_num)
    · exact le_refl 0
  refine le_min ?_ (by norm_num)
  have : (0:ℚ) ≤ min (roi / 200) 2 * (4/10) + min (ctr / 1) 2 * (2/10) +
      min (cr / 2) 2 * (3/10) +
      (if cpc > 0 then min ((1/2) / cpc) 2 * (1/10) else 0) := by linarith
  linarith

theorem perfScore_mono_roi {ctr cr cpc roi roi' : ℚ} (h : roi ≤ roi') :
    perfScore roi ctr cr cpc ≤ perfScore roi' ctr cr cpc := by
  simp only [perfScore]
  have h1 : min (roi / 200) 2 * (4/10) ≤ min (roi' / 200) 2 * (4/10) :=
    mul_le_mul_of_nonneg_right (min_le_min (by linarith) le_rfl) (by norm_num)
  exact min_le_min (by linarith) le_rfl

theorem spendOnly_rating :
    (get_performance_summary spendOnlyCampaign).performance_rating = -10 := by
  have h : (get_performance_summary spendOnlyCampaign).performance_rating =
      pyRound (-10) 1 := by
    norm_num [get_performance_summary, performanceRating, calculate_all_metrics,
      spendOnlyCampaign, calculate_roi, calculate_ctr, calculate_cpc, perfScore, min_def]
  rw [h]
  have h2 := pyRound_intCast (-10) 1
  push_cast at h2
  exact h2

theorem noReach_rating :
    (get_performance_summary noReachCampaign).performance_rating = 85 := by
  have h : (get_performance_summary noReachCampaign).performance_rating =
      pyRound 85 1 := by
    norm_num [get_performance_summary, performanceRating, calculate_all_metrics,
      noReachCampaign, calculate_roi, calculate_ctr, calculate_cpc, perfScore, min_def]
  rw [h]
  simpa using pyRound_intCast 85 1

/-- C1 counterexample: the campaign that only spent (cost 100, revenue 0)
has roi −100 and a performance score of −10, which lies outside [0, 100]:
the code caps the score above at 100 but never clamps it below at 0. -/
theorem C1_score_range_counterexample :
    (get_performance_summary spendOnlyCampaign).performance_rating < 0 := by
  rw [spendOnly_rating]
  norm_num

/-- C1 amended: the performance score never exceeds 100 for any campaign
snapshot; it is additionally at least 0 whenever the raw fields are
non-negative and revenue covers cost (with a negative roi it can drop
below 0, as the counterexample shows). -/
theorem C1_score_range_amended (c : CampaignData) :
    (get_performance_summary c).performance_rating ≤ 100 ∧
    (0 ≤ c.clicks → 0 ≤ c.impressions → 0 ≤ c.cost → 0 ≤ c.conversions →
      c.cost ≤ c.revenue → 0 ≤ (get_performance_summary c).performance_rating) := by
  constructor
  · calc (get_performance_summary c).performance_rating
        = pyRound (perfScore (calculate_all_metrics c).roi (calculate_all_metrics c).ctr
            (calculate_all_metrics c).conversion_rate (calculate_all_metrics c).cpc) 1 := rfl
      _ ≤ pyRound 100 1 := pyRound_mono 1 (perfScore_le_hundred _ _ _ _)
      _ = 100 := pyRound_hundred 1
  · intro h1 h2 h3 h4 h5
    have hroi : 0 ≤ (calculate_all_metrics c).roi := by
      show 0 ≤ calculate_roi c.revenue c.cost
      unfold calculate_roi
      split_ifs with hc
      · exact le_refl 0
      · have hcpos : 0 < c.cost := lt_of_le_of_ne h3 (Ne.symm hc)
        have hs : 0 ≤ c.revenue - c.cost := sub_nonneg.2 h5
        exact mul_nonneg (div_nonneg hs (le_of_lt hcpos)) (by norm_num)
    have hctr : 0 ≤ (calculate_all_metrics c).ctr := by
      show 0 ≤ calculate_ctr c.clicks c.impressions
      unfold calculate_ctr
      split_ifs with hc
      · exact le_refl 0
      · have : 0 < c.impressions := lt_of_le_of_ne h2 (Ne.symm hc)
        exact mul_nonneg (div_nonneg h1 (le_of_lt this)) (by norm_num)
    have hcr : 0 ≤ (calculate_all_metrics c).conversion_rate := by
      show 0 ≤ if c.conversions ≠ 0 ∧ c.clicks ≠ 0 then c.conversions / c.clicks * 100 else 0
      split_ifs with hc
      · have : 0 < c.clicks := lt_of_le_of_ne h1 (Ne.symm hc.2)
        exact mul_nonneg (div_nonneg h4 (le_of_lt this)) (by norm_num)
      · exact le_refl 0
    calc (0:ℚ) = pyRound 0 1 := (pyRound_zero 1).symm
      _ ≤ pyRound (perfScore (calculate_all_metrics c).roi (calculate_all_metrics c).ctr
            (calculate_all_metrics c).conversion_rate (calculate_all_metrics c).cpc) 1 :=
          pyRound_mono 1 (perfScore_nonneg _ hroi hctr hcr)
      _ = (get_performance_summary c).performance_rating := rfl

theorem C1_score_range_amended_witness :
    0 ≤ (get_performance_summary noReachCampaign).performance_rating :=
  (C1_score_range_amended noReachCampaign).2 (by norm_num [noReachCampaign])
    (by norm_num [noReachCampaign]) (by norm_num [noReachCampaign])
    (by norm_num [noReachCampaign]) (by norm_num [noReachCampaign])

/-- C10: the performance score is monotone nondecreasing in roi holding
ctr, conversion_rate and cpc fixed (the 2.0 cap makes it flat, not
strictly increasing, above twice the benchmark), and at roi=400, ctr=2,
conversion_rate=3, cpc=0.4 against the built-in default benchmarks the
score is at least 60. -/
theorem C10_score_monotone_roi :
    (∀ ctr cr cpc roi roi' : ℚ, roi ≤ roi' →
      pyRound (perfScore roi ctr cr cpc) 1 ≤ pyRound (perfScore roi' ctr cr cpc) 1) ∧
    60 ≤ pyRound (perfScore 400 2 3 (2/5)) 1 := by
  constructor
  · intro ctr cr cpc roi roi' h
    exact pyRound_mono 1 (perfScore_mono_roi h)
  · have hv : perfScore 400 2 3 (2/5) = 355/4 := by
      norm_num [perfScore, min_def]
    have hb := le_pyRound (perfScore 400 2 3 (2/5)) 1
    rw [hv] at hb ⊢
    norm_num at hb
    linarith

theorem C10_score_monotone_roi_witness :
    pyRound (perfScore 100 1 1 1) 1 ≤ pyRound (perfScore 200 1 1 1) 1 :=
  C10_score_monotone_roi.1 1 1 1 100 200 (by norm_num)

theorem mem_insertByScore {a b : WorstEntry} {l : List WorstEntry} :
    a ∈ insertByScore b l ↔ a = b ∨ a ∈ l := by
  induction l with
  | nil => simp [insertByScore]
  | cons c t ih =>
    unfold insertByScore
    split_ifs with h
    · simp [List.mem_cons]
    · simp only [List.mem_cons, ih]
      tauto

theorem mem_sortByScore {a : WorstEntry} {l : List WorstEntry} :
    a ∈ sortByScore l ↔ a ∈ l := by
  induction l with
  | nil => simp [sortByScore]
  | cons b t ih => simp [sortByScore, mem_insertByScore, ih]

theorem pairwise_insertByScore {a : WorstEntry} {l : List WorstEntry}
    (h : l.Pairwise (fun x y => x.score ≤ y.score)) :
    (insertByScore a l).Pairwise (fun x y => x.score ≤ y.score) := by
  induction l with
  | nil => simp [insertByScore]
  | cons b t ih =>
    unfold insertByScore
    rcases List.pairwise_cons.mp h with ⟨hb, ht⟩
    split_ifs with hab
    · refine List.pairwise_cons.mpr ⟨?_, h⟩
      intro x hx
      rcases List.mem_cons.mp hx with rfl | hxt
      · exact le_of_lt hab
      · exact le_trans (le_of_lt hab) (hb x hxt)
    · refine List.pairwise_cons.mpr ⟨?_, ih ht⟩
      intro x hx
      rcases mem_insertByScore.mp hx with rfl | hxt
      · exact not_lt.mp hab
      · exact hb x hxt

theorem pairwise_sortByScore (l : List WorstEntry) :
    (sortByScore l).Pairwise (fun x y => x.score ≤ y.score) := by
  induction l with
  | nil => simp [sortByScore]
  | cons b t ih => exact pairwise_insertByScore ih

theorem worstOf_spec {s : Summary} {e : WorstEntry} (h : worstOf s = some e) :
    e.name = s.campaign_name ∧ e.score = s.performance_rating ∧
      (s.performance_rating < 40 ∨ s.metrics.roi < 0) := by
  unfold worstOf at h
  split_ifs at h with h1 h2
  · injection h with h'
    subst h'
    exact ⟨rfl, rfl, Or.inl h1⟩
  · injection h with h'
    subst h'
    exact ⟨rfl, rfl, Or.inr h2⟩

/-- C8: for every campaign list, needs_attention contains only campaigns
whose score is below 40 or whose (rounded) roi is negative, is sorted
ascending by score, has length at most 3, and every kept entry scores no
higher than any entry dropped by the truncation (so it holds the
lowest-scoring such campaigns). -/
theorem C8_needs_attention (l : List CampaignData) :
    (analyze_campaign_batch l).overall.needs_attention.length ≤ 3 ∧
    (analyze_campaign_batch l).overall.needs_attention.Pairwise
      (fun a b => a.score ≤ b.score) ∧
    (∀ e ∈ (analyze_campaign_batch l).overall.needs_attention,
      ∃ c ∈ l, e.name = (get_performance_summary c).campaign_name ∧
        e.score = (get_performance_summary c).performance_rating ∧
        ((get_performance_summary c).performance_rating < 40 ∨
          (get_performance_summary c).metrics.roi < 0)) ∧
    (∀ e ∈ (analyze_campaign_batch l).overall.needs_attention,
      ∀ w ∈ (sortByScore ((l.map get_performance_summary).filterMap worstOf)).drop 3,
        e.score ≤ w.score) := by
  have hna : (analyze_campaign_batch l).overall.needs_attention =
      (sortByScore ((l.map get_performance_summary).filterMap worstOf)).take 3 := rfl
  refine ⟨?_, ?_, ?_, ?_⟩
  · rw [hna]
    exact List.length_take_le 3 _
  · rw [hna]
    exact (pairwise_sortByScore _).sublist (List.take_sublist 3 _)
  · intro e he
    rw [hna] at he
    have hsort : e ∈ sortByScore ((l.map get_performance_summary).filterMap worstOf) :=
      List.mem_of_mem_take he
    have hfm : e ∈ (l.map get_performance_summary).filterMap worstOf :=
      mem_sortByScore.mp hsort
    obtain ⟨s, hs, hws⟩ := List.mem_filterMap.mp hfm
    obtain ⟨c, hc, rfl⟩ := List.mem_map.mp hs
    obtain ⟨hn, hsc, hcond⟩ := worstOf_spec hws
    exact ⟨c, hc, hn, hsc, hcond⟩
  · intro e he w hw
    rw [hna] at he
    have hp := pairwise_sortByScore ((l.map get_performance_summary).filterMap worstOf)
    rw [← List.take_append_drop 3
      (sortByScore ((l.map get_performance_summary).filterMap worstOf))] at hp
    exact (List.pairwise_append.mp hp).2.2 e he w hw

theorem spendOnly_worstOf :
    worstOf (get_performance_summary spendOnlyCampaign) =
      some (WorstEntry.mk "a" (-10) Issue.lowOverall) := by
  unfold worstOf
  rw [spendOnly_rating]
  rw [if_pos (by norm_num : (-10 : ℚ) < 40)]
  rfl

theorem spendOnly_needs_attention :
    (analyze_campaign_batch [spendOnlyCampaign]).overall.needs_attention =
      [WorstEntry.mk "a" (-10) Issue.lowOverall] := by
  show (sortByScore (([spendOnlyCampaign].map get_performance_summary).filterMap
    worstOf)).take 3 = _
  simp [List.filterMap_cons, spendOnly_worstOf, sortByScore, insertByScore]

theorem C8_needs_attention_witness :
    ∃ c ∈ [spendOnlyCampaign],
      (WorstEntry.mk "a" (-10) Issue.lowOverall).name =
        (get_performance_summary c).campaign_name ∧
      (WorstEntry.mk "a" (-10) Issue.lowOverall).score =
        (get_performance_summary c).performance_rating ∧
      ((get_performance_summary c).performance_rating < 40 ∨
        (get_performance_summary c).metrics.roi < 0) :=
  (C8_needs_attention [spendOnlyCampaign]).2.2.1 (WorstEntry.mk "a" (-10) Issue.lowOverall)
    (by rw [spendOnly_needs_attention]; exact List.mem_singleton.mpr rfl)

theorem maxScoreFrom_cons (m : ℚ) (s : Summary) (t : List Summary) :
    maxScoreFrom m (s :: t) = maxScoreFrom (max m s.performance_rating) t := rfl

theorem le_maxScoreFrom (m : ℚ) (l : List Summary) : m ≤ maxScoreFrom m l := by
  induction l generalizing m with
  | nil => exact le_rfl
  | cons s t ih => exact le_trans (le_max_left _ _) (ih _)

theorem score_le_maxScoreFrom {s : Summary} {l : List Summary} (m : ℚ) (h : s ∈ l) :
    s.performance_rating ≤ maxScoreFrom m l := by
  induction l generalizing m with
  | nil => cases h
  | cons a t ih =>
    rcases List.mem_cons.mp h with rfl | ht
    · exact le_trans (le_max_right m s.performance_rating) (le_maxScoreFrom _ t)
    · exact ih _ ht

theorem foldl_bestStep_no_beat {m : ℚ} {b : Option BestRef} {l : List Summary}
    (h : ∀ s ∈ l, s.performance_rating ≤ m) : l.foldl bestStep (m, b) = (m, b) := by
  induction l with
  | nil => rfl
  | cons a t ih =>
    rw [List.foldl_cons]
    have hstep : bestStep (m, b) a = (m, b) := by
      unfold bestStep
      rw [if_neg (not_lt.mpr (h a (List.mem_cons_self a t)))]
    rw [hstep]
    exact ih (fun s hs => h s (List.mem_cons_of_mem a hs))

theorem foldl_bestStep_find (l : List Summary) :
    ∀ (m : ℚ) (b : Option BestRef), m < maxScoreFrom m l →
    ∃ s, l.find? (fun u => decide (u.performance_rating = maxScoreFrom m l)) = some s ∧
      (l.foldl bestStep (m, b)).2 = some (mkBestRef s) := by
  induction l with
  | nil =>
    intro m b h
    exact absurd h (lt_irrefl m)
  | cons a t ih =>
    intro m b h
    by_cases ha : m < a.performance_rating
    · have hmax : max m a.performance_rating = a.performance_rating :=
        max_eq_right (le_of_lt ha)
      have hM : maxScoreFrom m (a :: t) = maxScoreFrom a.performance_rating t := by
        rw [maxScoreFrom_cons, hmax]
      have hstep : bestStep (m, b) a = (a.performance_rating, some (mkBestRef a)) := by
        unfold bestStep
        rw [if_pos ha]
        rfl
      by_cases hbeat : a.performance_rating < maxScoreFrom a.performance_rating t
      · obtain ⟨u, hfind, hsnd⟩ := ih a.performance_rating (some (mkBestRef a)) hbeat
        refine ⟨u, ?_, ?_⟩
        · rw [hM, List.find?_cons_of_neg]
          · exact hfind
          · simp only [decide_eq_true_eq]
            exact ne_of_lt hbeat
        · rw [List.foldl_cons, hstep]
          exact hsnd
      · have hM2 : maxScoreFrom a.performance_rating t = a.performance_rating :=
          le_antisymm (not_lt.mp hbeat) (le_maxScoreFrom _ _)
        have hall : ∀ s ∈ t, s.performance_rating ≤ a.performance_rating :=
          fun s hs => hM2 ▸ score_le_maxScoreFrom _ hs
        refine ⟨a, ?_, ?_⟩
        · exact List.find?_cons_of_pos _ (by
            simp only [decide_eq_true_eq]
            rw [hM, hM2])
        · rw [List.foldl_cons, hstep, foldl_bestStep_no_beat hall]
    · have hmax : max m a.performance_rating = m := max_eq_left (not_lt.mp ha)
      have hM : maxScoreFrom m (a :: t) = maxScoreFrom m t := by
        rw [maxScoreFrom_cons, hmax]
      have hstep : bestStep (m, b) a = (m, b) := by
        unfold bestStep
        rw [if_neg ha]
      have h' : m < maxScoreFrom m t := by
        rw [← hM]
        exact h
      obtain ⟨u, hfind, hsnd⟩ := ih m b h'
      refine ⟨u, ?_, ?_⟩
      · rw [hM, List.find?_cons_of_neg]
        · exact hfind
        · simp only [decide_eq_true_eq]
          intro hc
          have h1 : a.performance_rating ≤ m := not_lt.mp ha
          rw [hc] at h1
          exact absurd (lt_of_lt_of_le h' h1) (lt_irrefl m)
      · rw [List.foldl_cons, hstep]
        exact hsnd

/-- C9 amended: best_performing is the first campaign attaining the
maximum performance score (ties keep the first seen) provided at least
one campaign scores above the -1 sentinel the loop starts from; since
scores can be negative, a non-empty list whose campaigns all score at
most -1 leaves best_performing as None. -/
theorem C9_best_performing_amended (l : List CampaignData)
    (h : ∃ s ∈ l.map get_performance_summary, -1 < s.performance_rating) :
    ∃ s, (l.map get_performance_summary).find?
        (fun u => decide (u.performance_rating =
          maxScoreFrom (-1) (l.map get_performance_summary))) = some s ∧
      (analyze_campaign_batch l).overall.best_performing = some (mkBestRef s) := by
  obtain ⟨s0, hs0, hgt⟩ := h
  have hlt : (-1 : ℚ) < maxScoreFrom (-1) (l.map get_performance_summary) :=
    lt_of_lt_of_le hgt (score_le_maxScoreFrom _ hs0)
  obtain ⟨u, hfind, hsnd⟩ := foldl_bestStep_find (l.map get_performance_summary) (-1) none hlt
  exact ⟨u, hfind, hsnd⟩

/-- C9 counterexample: the single spend-only campaign scores -10, which
never beats the -1 sentinel, so best_performing stays None although one
campaign was analyzed. -/
theorem C9_best_performing_counterexample :
    (analyze_campaign_batch [spendOnlyCampaign]).overall.best_performing = none ∧
      ([spendOnlyCampaign] : List CampaignData) ≠ [] := by
  constructor
  · show (([spendOnlyCampaign].map get_performance_summary).foldl
      bestStep (-1, none)).2 = none
    have hstep : bestStep ((-1 : ℚ), (none : Option BestRef))
        (get_performance_summary spendOnlyCampaign) = ((-1 : ℚ), none) := by
      unfold bestStep
      rw [spendOnly_rating]
      norm_num
    simp [hstep]
  · simp

theorem C9_best_performing_amended_witness :
    ∃ s, ([noReachCampaign].map get_performance_summary).find?
        (fun u => decide (u.performance_rating =
          maxScoreFrom (-1) ([noReachCampaign].map get_performance_summary))) = some s ∧
      (analyze_campaign_batch [noReachCampaign]).overall.best_performing =
        some (mkBestRef s) :=
  C9_best_performing_amended [noReachCampaign]
    ⟨get_performance_summary noReachCampaign, by simp, by rw [noReach_rating]; norm_num⟩
